/-
  Spec2Proof.lean — a verification development for the Trademark-Automation
  scraper core (src/app.py and src/platforms/).

  The Python source is shallowly embedded: pure fragments become Lean
  functions over Lean strings and lists; page interaction is abstracted into
  explicit oracle inputs (the observed outcome of each selector / navigation
  step); Python `None` is modelled as `Option.none`, Python exceptions as
  explicit outcome constructors or `Option` results where the source catches
  them.  Each definition carries a comment naming the source lines it embeds.
-/
import Mathlib

/- ==================================================================
   Python string primitives used by the embedded code.
   ================================================================== -/

/-- ASCII whitespace as treated by Python `str.strip()` / `str.split()`. -/
def isPyWs (c : Char) : Bool :=
  c == ' ' || c == '\t' || c == '\n' || c == '\r' || c == '\x0b' || c == '\x0c'

/-- Python `str.lower()` (ASCII case folding suffices for the claims). -/
def pyLowerL (l : List Char) : List Char := l.map Char.toLower

/-- Python `str.strip()`: drop leading and trailing whitespace. -/
def pyStripL (l : List Char) : List Char :=
  ((l.dropWhile isPyWs).reverse.dropWhile isPyWs).reverse

/-- Does `pat` occur at the very front of `l`? (helper for substring). -/
def leadsWith : List Char → List Char → Bool
  | [], _ => true
  | _ :: _, [] => false
  | p :: ps, c :: cs => p == c && leadsWith ps cs

/-- Python `pat in s` on character lists: `pat` occurs contiguously in `l`. -/
def containsSeq (pat : List Char) (l : List Char) : Bool :=
  match l with
  | [] => pat.isEmpty
  | c :: rest => leadsWith pat (c :: rest) || containsSeq pat rest

/-- Python `pat in s` on strings. -/
def subStr (pat s : String) : Bool := containsSeq pat.toList s.toList

/-- Python `str.strip()` on strings. -/
def pyStrip (s : String) : String := ⟨pyStripL s.toList⟩

/-- Python `str.lower()` on strings. -/
def pyLower (s : String) : String := ⟨pyLowerL s.toList⟩

theorem leadsWith_self : ∀ l : List Char, leadsWith l l = true := by
  intro l
  induction l with
  | nil => rfl
  | cons c cs ih => simp [leadsWith, ih]

theorem containsSeq_self (l : List Char) : containsSeq l l = true := by
  cases l with
  | nil => rfl
  | cons c cs => simp [containsSeq, leadsWith_self]

/- ==================================================================
   C4 — the whitelist classifier.
   Embeds ECommerceAutomation.check_whitelisted_seller, app.py 105-127.
   ================================================================== -/

/-- app.py 110-114: the list of names to consider — the stripped seller name
when the seller string is truthy (non-empty), then the stripped manufacturer
name when truthy. -/
def namesToCheck (seller manu : String) : List String :=
  (if seller ≠ "" then [pyStrip seller] else []) ++
  (if manu ≠ "" then [pyStrip manu] else [])

/-- app.py 122-124: one name against one allow-list entry — case-insensitive
equality or containment in either direction.  The entry is lowercased but
not stripped here. -/
def sellerMatches (name w : String) : Bool :=
  let n := pyLowerL name.toList
  let wv := pyLowerL w.toList
  n == wv || containsSeq wv n || containsSeq n wv

/-- app.py 120-125: the inner `for whitelisted in self.whitelisted_sellers`
loop with its early `return "Whitelisted"`. -/
def scanAllowList (name : String) : List String → Bool
  | [] => false
  | w :: ws => sellerMatches name w || scanAllowList name ws

/-- app.py 116-125: the outer `for name in names_to_check` loop;
`if not name: continue` skips names that are empty after stripping. -/
def scanNames : List String → List String → Bool
  | [], _ => false
  | n :: ns, wl => if n = "" then scanNames ns wl else (scanAllowList n wl || scanNames ns wl)

/-- app.py 105-127: `check_whitelisted_seller(seller_name, manufacturer_name)`
against an allow-list `wl` (`self.whitelisted_sellers`). -/
def check_whitelisted_seller (seller manu : String) (wl : List String) : String :=
  if wl = [] then "False"
  else if scanNames (namesToCheck seller manu) wl then "Whitelisted" else "False"

/-- The matching predicate exactly as the claim words it: some non-empty name
among the seller and manufacturer and some entry of the allow-list, BOTH
case-folded AND trimmed, with one containing the other.  (Spec-side
definition, for comparison with the code: the code never trims the
allow-list entry inside the classifier.) -/
def claimWhitelistMatch (seller manu : String) (wl : List String) : Bool :=
  ([seller, manu].filter (fun n => n ≠ "")).any fun n =>
    wl.any fun w =>
      let a := pyLowerL (pyStripL n.toList)
      let b := pyLowerL (pyStripL w.toList)
      a == b || containsSeq b a || containsSeq a b

theorem scanAllowList_iff (n : String) (wl : List String) :
    scanAllowList n wl = true ↔ ∃ w ∈ wl, sellerMatches n w = true := by
  induction wl with
  | nil => simp [scanAllowList]
  | cons w ws ih => simp [scanAllowList, ih, or_and_right, exists_or]

theorem scanNames_iff (ns wl : List String) :
    scanNames ns wl = true ↔ ∃ n ∈ ns, n ≠ "" ∧ scanAllowList n wl = true := by
  induction ns with
  | nil => simp [scanNames]
  | cons n ns ih =>
    by_cases h : n = ""
    · subst h; simp [scanNames, ih]
    · simp [scanNames, h, ih, or_and_right, exists_or]

theorem sellerMatches_iff (n w : String) :
    sellerMatches n w = true ↔
      (containsSeq (pyLowerL w.toList) (pyLowerL n.toList) = true ∨
       containsSeq (pyLowerL n.toList) (pyLowerL w.toList) = true) := by
  unfold sellerMatches
  simp only [Bool.or_eq_true, beq_iff_eq]
  constructor
  · rintro ((h | h) | h)
    · exact Or.inl (h ▸ containsSeq_self _)
    · exact Or.inl h
    · exact Or.inr h
  · rintro (h | h)
    · exact Or.inl (Or.inr h)
    · exact Or.inr h

/-- C4 (counterexample): the claim predicts "Whitelisted" for seller
"xabcx" against allow-list entry " abc " (after trimming, "abc" is contained
in "xabcx"), but the code returns "False": `check_whitelisted_seller` never
trims the allow-list entry, and " abc " is not a substring of "xabcx". -/
theorem c4_whitelist_counterexample :
    claimWhitelistMatch "xabcx" "" [" abc "] = true ∧
    check_whitelisted_seller "xabcx" "" [" abc "] = "False" := by
  constructor
  · decide
  · decide

/-- C4 (amended): `check_whitelisted_seller s m L` returns "Whitelisted" iff
some name among {trimmed s, trimmed m} (taken only when the original string
is non-empty, and skipped when empty after trimming) and some entry of `L`
have, after case-folding — the names trimmed, the entries NOT trimmed —
one string containing the other; and an empty allow-list always yields
"False". -/
theorem c4_whitelist_amended :
    (∀ seller manu wl, check_whitelisted_seller seller manu wl = "Whitelisted" ↔
      ∃ n ∈ namesToCheck seller manu, n ≠ "" ∧
        ∃ w ∈ wl, (containsSeq (pyLowerL w.toList) (pyLowerL n.toList) = true ∨
                   containsSeq (pyLowerL n.toList) (pyLowerL w.toList) = true)) ∧
    (∀ seller manu, check_whitelisted_seller seller manu [] = "False") := by
  constructor
  · intro seller manu wl
    unfold check_whitelisted_seller
    by_cases hwl : wl = []
    · subst hwl
      simp
    · rw [if_neg hwl]
      by_cases hs : scanNames (namesToCheck seller manu) wl = true
      · rw [if_pos hs]
        rw [scanNames_iff] at hs
        simp only [String.reduceEq, true_iff]
        obtain ⟨n, hn, hne, hscan⟩ := hs
        rw [scanAllowList_iff] at hscan
        obtain ⟨w, hw, hm⟩ := hscan
        exact ⟨n, hn, hne, w, hw, (sellerMatches_iff n w).mp hm⟩
      · rw [if_neg hs]
        constructor
        · intro h; exact absurd h (by decide)
        · rintro ⟨n, hn, hne, w, hw, hm⟩
          exact absurd (scanNames_iff _ _ |>.mpr
            ⟨n, hn, hne, (scanAllowList_iff n wl).mpr ⟨w, hw, (sellerMatches_iff n w).mpr hm⟩⟩) hs
  · intro seller manu
    rfl

/- ==================================================================
   C9 — the field resolver first_text / text_by_xpath.
   Embeds BaseExtractor.first_text (base.py 19-31) and
   BaseExtractor.text_by_xpath (base.py 33-45).
   ================================================================== -/

/-- Python `str.split()` with no separator: split on whitespace runs
(auxiliary accumulator holds the current word reversed). -/
def splitWsAux : List Char → List Char → List (List Char)
  | [], acc => if acc.isEmpty then [] else [acc.reverse]
  | c :: cs, acc =>
    if isPyWs c then
      (if acc.isEmpty then splitWsAux cs [] else acc.reverse :: splitWsAux cs [])
    else splitWsAux cs (c :: acc)

/-- Python `str.split()` on a character list. -/
def pySplitWs (l : List Char) : List (List Char) := splitWsAux l []

/-- Python `" ".join(words)`. -/
def joinSpace : List (List Char) → List Char
  | [] => []
  | [w] => w
  | w :: ws => w ++ ' ' :: joinSpace ws

/-- `" ".join(s.strip().split())` — the whitespace normalization applied by
the resolver (base.py 26-28). -/
def pyNormalizeWs (s : String) : String := ⟨joinSpace (pySplitWs (pyStripL s.toList))⟩

/-- The observed outcome of evaluating one selector on the live page:
the locator chain raised, the locator matched nothing (`count() == 0`),
or `inner_text()` returned this raw text. -/
inductive SelOutcome where
  | exnRaised : SelOutcome
  | noneFound : SelOutcome
  | textIs : String → SelOutcome
deriving DecidableEq

/-- base.py 19-31: `first_text` — iterate the selector outcomes in order;
an exception or a missing/blank text continues; the first text that is
non-empty after stripping is returned whitespace-normalized. -/
def first_text : List SelOutcome → Option String
  | [] => none
  | o :: rest =>
    match o with
    | .exnRaised => first_text rest
    | .noneFound => first_text rest
    | .textIs s =>
      if pyStripL s.toList ≠ [] then some (pyNormalizeWs s) else first_text rest

/-- base.py 33-45: `text_by_xpath` — identical control flow over XPath
selectors (the `xpath=` prefixing does not change the outcome model). -/
def text_by_xpath : List SelOutcome → Option String
  | [] => none
  | o :: rest =>
    match o with
    | .exnRaised => text_by_xpath rest
    | .noneFound => text_by_xpath rest
    | .textIs s =>
      if pyStripL s.toList ≠ [] then some (pyNormalizeWs s) else text_by_xpath rest

/-- What a single selector outcome contributes: its normalized text when the
raw text is non-blank, and nothing on an exception, a missing element, or
blank text. -/
def yieldsText (o : SelOutcome) : Option String :=
  match o with
  | .textIs s => if pyStripL s.toList ≠ [] then some (pyNormalizeWs s) else none
  | _ => none

theorem first_text_cons (o : SelOutcome) (rest : List SelOutcome) :
    first_text (o :: rest) =
      match yieldsText o with
      | some t => some t
      | none => first_text rest := by
  cases o with
  | exnRaised => rfl
  | noneFound => rfl
  | textIs s =>
    by_cases h : pyStripL s.data = []
    · simp [first_text, yieldsText, h]
    · simp [first_text, yieldsText, h]

theorem text_by_xpath_eq_first_text (outs : List SelOutcome) :
    text_by_xpath outs = first_text outs := by
  induction outs with
  | nil => rfl
  | cons o rest ih =>
    cases o with
    | exnRaised => simpa [text_by_xpath, first_text] using ih
    | noneFound => simpa [text_by_xpath, first_text] using ih
    | textIs s =>
      by_cases h : pyStripL s.data = []
      · simpa [text_by_xpath, first_text, h] using ih
      · simp [text_by_xpath, first_text, h]

theorem first_text_none_iff (outs : List SelOutcome) :
    first_text outs = none ↔ ∀ o ∈ outs, yieldsText o = none := by
  induction outs with
  | nil => simp [first_text]
  | cons o rest ih =>
    rw [first_text_cons]
    cases hy : yieldsText o with
    | some t => simp [hy]
    | none => simp [hy, ih]

theorem first_text_some_iff (outs : List SelOutcome) (t : String) :
    first_text outs = some t ↔
      ∃ pre o post, outs = pre ++ o :: post ∧
        (∀ q ∈ pre, yieldsText q = none) ∧ yieldsText o = some t := by
  induction outs with
  | nil =>
    simp only [first_text]
    constructor
    · intro h; cases h
    · rintro ⟨pre, o, post, h, _, _⟩
      exact absurd h (by simp)
  | cons a rest ih =>
    rw [first_text_cons]
    cases hy : yieldsText a with
    | some u =>
      constructor
      · intro h
        refine ⟨[], a, rest, rfl, by simp, ?_⟩
        rw [hy]; exact h
      · rintro ⟨pre, o, post, hsplit, hpre, ho⟩
        cases pre with
        | nil =>
          simp only [List.nil_append, List.cons.injEq] at hsplit
          rw [← hsplit.1, hy] at ho
          exact ho
        | cons p ps =>
          simp only [List.cons_append, List.cons.injEq] at hsplit
          have := hpre p (by simp)
          rw [← hsplit.1, hy] at this
          cases this
    | none =>
      rw [ih]
      constructor
      · rintro ⟨pre, o, post, hsplit, hpre, ho⟩
        refine ⟨a :: pre, o, post, by simp [hsplit], ?_, ho⟩
        intro q hq
        rcases List.mem_cons.mp hq with h | h
        · rw [h]; exact hy
        · exact hpre q h
      · rintro ⟨pre, o, post, hsplit, hpre, ho⟩
        cases pre with
        | nil =>
          simp only [List.nil_append, List.cons.injEq] at hsplit
          rw [← hsplit.1, hy] at ho
          cases ho
        | cons p ps =>
          simp only [List.cons_append, List.cons.injEq] at hsplit
          exact ⟨ps, o, post, hsplit.2, fun q hq => hpre q (by simp [hq]), ho⟩

/-- C9 (confirmed): the resolver tries its selectors in declared order and
returns the whitespace-normalized text of the first selector yielding
non-blank text (an exception or a missing element behaves exactly like blank
text, i.e. is swallowed); it returns `none` exactly when every selector
fails or yields blank text; and `text_by_xpath` has the same behaviour as
`first_text`. -/
theorem c9_field_resolver :
    (∀ outs : List SelOutcome, first_text outs = none ↔ ∀ o ∈ outs, yieldsText o = none) ∧
    (∀ (outs : List SelOutcome) (t : String), first_text outs = some t ↔
      ∃ pre o post, outs = pre ++ o :: post ∧
        (∀ q ∈ pre, yieldsText q = none) ∧ yieldsText o = some t) ∧
    (∀ outs : List SelOutcome, text_by_xpath outs = first_text outs) ∧
    (∀ s, yieldsText (SelOutcome.exnRaised) = none ∧ yieldsText (SelOutcome.noneFound) = none ∧
      (yieldsText (SelOutcome.textIs s) = none ∨
       yieldsText (SelOutcome.textIs s) = some (pyNormalizeWs s))) := by
  refine ⟨first_text_none_iff, first_text_some_iff, text_by_xpath_eq_first_text, ?_⟩
  intro s
  refine ⟨rfl, rfl, ?_⟩
  by_cases h : pyStripL s.data = []
  · left; simp [yieldsText, h]
  · right; simp [yieldsText, h]

/- ==================================================================
   C8 / C10 — extract_product_data field pipelines.
   Embeds BaseExtractor.extract_common_data (base.py 112-176),
   AmazonExtractor.extract_product_data (amazon.py 60-163) and
   GenericExtractor.extract_product_data (generic.py 54-175).
   Resolver results (first_text / text_by_xpath / get_image_url /
   page.title) are oracle inputs of type Option String: none is Python
   None (strategy exhausted, or page.title raised).
   ================================================================== -/

/-- Python truthiness of a string-or-None value. -/
def pyTruthy : Option String → Bool
  | none => false
  | some s => s ≠ ""

/-- Python `x or ""` on a string-or-None value. -/
def pyOrEmpty : Option String → String
  | none => ""
  | some s => s

/-- A product dict as the extractors return it: every value is a Python
string or None (`Option.none`). -/
structure PyProductData where
  product_url : Option String
  title : Option String
  price : Option String
  seller_name : Option String
  manufacturer_name : Option String
  image_url : Option String

/-- base.py 112-176 `extract_common_data`: each field is the resolver result
defaulted with `or ""`, so the result values are plain strings. -/
structure CommonData where
  title : String
  price : String
  seller_name : String
  manufacturer_name : String
  image_url : String

/-- base.py 160-166: the dict `{"title": title or "", ...}`. -/
def extract_common_data (titleR priceR sellerR manuR imageR : Option String) : CommonData :=
  { title := pyOrEmpty titleR
    price := pyOrEmpty priceR
    seller_name := pyOrEmpty sellerR
    manufacturer_name := pyOrEmpty manuR
    image_url := pyOrEmpty imageR }

/-- amazon.py 75: the character class kept by `re.sub(r'[^\d.,₹]', '', price)`
(decimal digits, period, comma, rupee sign). -/
def keepPriceChar (c : Char) : Bool := c.isDigit || c == '.' || c == ',' || c == '₹'

/-- amazon.py 75: the substitution itself. -/
def rupeeFilter (s : String) : String := ⟨s.toList.filter keepPriceChar⟩

/-- Python `s.startswith(pat)`. -/
def strStarts (pat s : String) : Bool := leadsWith pat.toList s.toList

/-- amazon.py 74-78: strip non-price characters; if no rupee sign remains and
the string does not start with a dollar sign, prefix a rupee sign. -/
def amazonCleanPrice (s : String) : String :=
  let p := rupeeFilter s
  if ¬ subStr "₹" p ∧ ¬ strStarts "$" p then "₹" ++ p else p

/-- Everything before the first occurrence of `pat` — Python
`s.split(pat)[0]` for a non-empty separator. -/
def cutAtSeq (pat : List Char) (l : List Char) : List Char :=
  match l with
  | [] => []
  | c :: rest => if leadsWith pat (c :: rest) then [] else c :: cutAtSeq pat rest

/-- Python `s.strip(t)` for a single strip character. -/
def stripCharL (t : Char) (l : List Char) : List Char :=
  ((l.dropWhile (fun c => c == t)).reverse.dropWhile (fun c => c == t)).reverse

/-- amazon.py 127: `re.sub(r'^(Brand:|Manufacturer:)\s*', '', m)`. -/
def dropLeadingTag (m : List Char) : List Char :=
  if leadsWith "Brand:".toList m then (m.drop 6).dropWhile isPyWs
  else if leadsWith "Manufacturer:".toList m then (m.drop 13).dropWhile isPyWs
  else m

/-- amazon.py 127-133: the manufacturer-name cleaning chain. -/
def amazonCleanManufacturer (m : String) : String :=
  let m1 := dropLeadingTag m.toList
  let m2 := pyStripL (stripCharL ':' (pyStripL m1))
  let m3 := pyStripL (cutAtSeq "Packer".toList m2)
  let m4 := pyStripL (cutAtSeq "Seller".toList m3)
  let m5 := pyStripL (cutAtSeq "Imported by".toList m4)
  let m6 := pyStripL (cutAtSeq "Brand:".toList m5)
  ⟨pyStripL (cutAtSeq "Manufacturer:".toList m6)⟩

/-- The resolver outcomes AmazonExtractor.extract_product_data consumes:
the five extract_common_data resolvers, the availability text (amazon.py
81-86), the two seller fallbacks (92-108), the manufacturer fallback
(114-123), the image fallback (139-146), and the page URL. -/
structure AmazonPageIn where
  commonTitleR : Option String
  commonPriceR : Option String
  commonSellerR : Option String
  commonManuR : Option String
  commonImageR : Option String
  outOfStockR : Option String
  sellerCssR : Option String
  sellerXpathR : Option String
  manuXpathR : Option String
  imageFbR : Option String
  pageUrl : String

/-- amazon.py 73-88: the stored price — cleaning applied only when the
common price is truthy (73-78), then the "Out of stock" override (81-88),
where `oos` is the availability resolver's result. -/
def amazonPriceField (cp : String) (oos : Option String) : String :=
  let price1 := if cp ≠ "" then amazonCleanPrice cp else cp
  match oos with
  | some t => if subStr "out of stock" (pyLower t) then "Out of stock" else price1
  | none => price1

/-- amazon.py 60-152 `extract_product_data` (the except-branch at 154-163 is
unreachable: every page interaction inside the body already catches its own
exceptions). -/
def amazonExtractProductData (i : AmazonPageIn) : PyProductData :=
  let c := extract_common_data i.commonTitleR i.commonPriceR i.commonSellerR
    i.commonManuR i.commonImageR
  -- 73-88: price cleaning and "Out of stock" override
  let price2 := amazonPriceField c.price i.outOfStockR
  -- 91-110: seller fallback chain, then `seller or ""`
  let sellerFb := if pyTruthy i.sellerCssR then i.sellerCssR else i.sellerXpathR
  let seller := if c.seller_name = "" then pyOrEmpty sellerFb else c.seller_name
  -- 113-135: manufacturer fallback; cleaned and assigned only when truthy
  let manu := if c.manufacturer_name = "" then
      (match i.manuXpathR with
       | some m => if m ≠ "" then amazonCleanManufacturer m else c.manufacturer_name
       | none => c.manufacturer_name)
    else c.manufacturer_name
  -- 138-147: image fallback
  let image := if c.image_url = "" then pyOrEmpty i.imageFbR else c.image_url
  -- 150: product_url = page.url; 152: return
  { product_url := some i.pageUrl
    title := some c.title
    price := some price2
    seller_name := some seller
    manufacturer_name := some manu
    image_url := some image }

/-- generic.py 79: the page-title suffixes stripped by strategy 3. -/
def genericTitleSuffixes : List String :=
  [" | Buy Online", " - Buy Now", " | Shop", " - Price", " | Best Price"]

/-- generic.py 79-84: cut the page title at the first matching suffix
(`page_title.split(suffix)[0].strip()`), else keep it whole. -/
def firstSuffixCut : List String → String → String
  | [], t => t
  | suf :: rest, t =>
    if subStr suf t then ⟨pyStripL (cutAtSeq suf.toList t.toList)⟩
    else firstSuffixCut rest t

/-- The resolver outcomes GenericExtractor.extract_product_data consumes:
per-field strategy-chain results in declared order, the `page.title()`
outcome (none = it raised), the image resolver, and the page URL. -/
structure GenericPageIn where
  titleS1 : Option String
  titleS2 : Option String
  pageTitleR : Option String
  priceS1 : Option String
  priceS2 : Option String
  priceS3 : Option String
  sellerS1 : Option String
  sellerS2 : Option String
  manuS1 : Option String
  manuS2 : Option String
  imageR : Option String
  pageUrl : String

/-- generic.py 54-175 `extract_product_data`: fields fall through their
strategy chains on falsy results and are returned RAW — a field with no
result stays Python None, there is no `or ""` defaulting here. -/
def genericExtractProductData (i : GenericPageIn) : PyProductData :=
  let title0 := if pyTruthy i.titleS1 then i.titleS1 else i.titleS2
  let title := if pyTruthy title0 then title0 else
    (match i.pageTitleR with
     | some t => some (firstSuffixCut genericTitleSuffixes t)
     | none => none)
  let price0 := if pyTruthy i.priceS1 then i.priceS1 else i.priceS2
  let price := if pyTruthy price0 then price0 else i.priceS3
  let seller := if pyTruthy i.sellerS1 then i.sellerS1 else i.sellerS2
  let manu0 := if pyTruthy i.manuS1 then i.manuS1 else i.manuS2
  -- generic.py 152-153: use the seller when no manufacturer was found
  let manu := if ¬ pyTruthy manu0 ∧ pyTruthy seller then seller else manu0
  { product_url := some i.pageUrl
    title := title
    price := price
    seller_name := seller
    manufacturer_name := manu
    image_url := i.imageR }

/-- C8 (counterexample): on a page where every strategy fails (all resolver
outcomes None, `page.title()` raises), GenericExtractor.extract_product_data
returns Python None — not the empty string — for title, price, seller,
manufacturer and image, refuting "every field is a string; an absent value
is the empty string, never None" for this registered extractor. -/
theorem c8_fields_counterexample :
    (genericExtractProductData
        ⟨none, none, none, none, none, none, none, none, none, none, none,
         "https://shop.example/product/1"⟩).title = none ∧
    (genericExtractProductData
        ⟨none, none, none, none, none, none, none, none, none, none, none,
         "https://shop.example/product/1"⟩).price = none ∧
    (genericExtractProductData
        ⟨none, none, none, none, none, none, none, none, none, none, none,
         "https://shop.example/product/1"⟩).seller_name = none ∧
    (genericExtractProductData
        ⟨none, none, none, none, none, none, none, none, none, none, none,
         "https://shop.example/product/1"⟩).manufacturer_name = none ∧
    (genericExtractProductData
        ⟨none, none, none, none, none, none, none, none, none, none, none,
         "https://shop.example/product/1"⟩).image_url = none := by
  refine ⟨rfl, rfl, rfl, rfl, rfl⟩

/-- C8 (amended): the base extract_common_data and the Amazon extractor do
return all-string records, with the empty string (never None) for absent
values; the Generic extractor instead returns None for each field whose
strategies all fail (the Meesho extractor shares this shape). -/
theorem c8_fields_amended :
    (extract_common_data none none none none none =
      { title := "", price := "", seller_name := "", manufacturer_name := "",
        image_url := "" }) ∧
    (∀ i : AmazonPageIn,
      (amazonExtractProductData i).product_url ≠ none ∧
      (amazonExtractProductData i).title ≠ none ∧
      (amazonExtractProductData i).price ≠ none ∧
      (amazonExtractProductData i).seller_name ≠ none ∧
      (amazonExtractProductData i).manufacturer_name ≠ none ∧
      (amazonExtractProductData i).image_url ≠ none) ∧
    (∀ tR pR sR mR iR, (extract_common_data tR pR sR mR iR).title = pyOrEmpty tR) ∧
    ((genericExtractProductData
        ⟨none, none, none, none, none, none, none, none, none, none, none,
         "u"⟩).title = none) := by
  refine ⟨rfl, ?_, fun _ _ _ _ _ => rfl, rfl⟩
  intro i
  refine ⟨by simp [amazonExtractProductData], by simp [amazonExtractProductData],
    by simp [amazonExtractProductData], by simp [amazonExtractProductData],
    by simp [amazonExtractProductData], by simp [amazonExtractProductData]⟩

theorem keepPriceChar_rupee : keepPriceChar '₹' = true := by decide

theorem rupeeFilter_chars (s : String) :
    ∀ c ∈ (rupeeFilter s).toList, keepPriceChar c = true := by
  intro c hc
  have : c ∈ s.toList.filter keepPriceChar := hc
  exact (List.mem_filter.mp this).2

theorem strStarts_dollar_rupeeFilter (s : String) :
    strStarts "$" (rupeeFilter s) = false := by
  unfold strStarts
  cases hfl : (rupeeFilter s).toList with
  | nil => simp [hfl, leadsWith]
  | cons c cs =>
    have hc : keepPriceChar c = true := by
      apply rupeeFilter_chars
      rw [hfl]; exact List.mem_cons_self c cs
    have hne : ('$' == c) = false := by
      cases hq : ('$' == c) with
      | false => rfl
      | true =>
        have : c = '$' := (beq_iff_eq.mp hq).symm
        rw [this] at hc
        exact absurd hc (by decide)
    simp [hfl, leadsWith, hne]

theorem amazonCleanPrice_spec (s : String) :
    subStr "₹" (amazonCleanPrice s) = true ∧
    ∀ c ∈ (amazonCleanPrice s).toList, keepPriceChar c = true := by
  unfold amazonCleanPrice
  by_cases h : (¬ subStr "₹" (rupeeFilter s) = true ∧ ¬ strStarts "$" (rupeeFilter s) = true)
  · rw [if_pos h]
    constructor
    · show containsSeq "₹".toList ("₹" ++ rupeeFilter s).toList = true
      have : ("₹" ++ rupeeFilter s).toList = '₹' :: (rupeeFilter s).toList := rfl
      rw [this]
      simp [containsSeq, leadsWith]
    · intro c hc
      have : ("₹" ++ rupeeFilter s).toList = '₹' :: (rupeeFilter s).toList := rfl
      rw [this] at hc
      rcases List.mem_cons.mp hc with h1 | h1
      · rw [h1]; exact keepPriceChar_rupee
      · exact rupeeFilter_chars s c h1
  · rw [if_neg h]
    push_neg at h
    constructor
    · by_cases hsub : subStr "₹" (rupeeFilter s) = true
      · exact hsub
      · have := h (by simpa using hsub)
        rw [strStarts_dollar_rupeeFilter] at this
        cases this
    · exact rupeeFilter_chars s

/-- C10 (confirmed): the stored Amazon price is always the empty string, the
literal "Out of stock", or a string over {digits, ',', '.', '₹'} containing
'₹'; the `startswith('$')` guard is dead — the substitution has already
removed every '$' — so a dollar-denominated price is re-labelled with a '₹'
prefix, as the concrete "$5.99" run shows. -/
theorem c10_amazon_price_cleaning :
    (∀ i : AmazonPageIn,
      (amazonExtractProductData i).price = some "" ∨
      (amazonExtractProductData i).price = some "Out of stock" ∨
      ∃ p, (amazonExtractProductData i).price = some p ∧ subStr "₹" p = true ∧
        ∀ c ∈ p.toList, keepPriceChar c = true) ∧
    (∀ s : String, strStarts "$" (rupeeFilter s) = false) ∧
    ((amazonExtractProductData
        ⟨some "T", some "$5.99", none, none, none, none, none, none, none, none,
         "u"⟩).price = some "₹5.99") := by
  refine ⟨?_, strStarts_dollar_rupeeFilter, by decide⟩
  intro i
  have hpr : (amazonExtractProductData i).price =
      some (amazonPriceField (pyOrEmpty i.commonPriceR) i.outOfStockR) := rfl
  rw [hpr]
  unfold amazonPriceField
  cases hoos : i.outOfStockR with
  | some t =>
    by_cases hmatch : subStr "out of stock" (pyLower t) = true
    · right; left; simp [hmatch]
    · simp only [hmatch, Bool.false_eq_true, if_false]
      by_cases hcp : pyOrEmpty i.commonPriceR = ""
      · left; simp [hcp]
      · right; right
        refine ⟨amazonCleanPrice (pyOrEmpty i.commonPriceR), by simp [hcp], ?_, ?_⟩
        · exact (amazonCleanPrice_spec _).1
        · exact (amazonCleanPrice_spec _).2
  | none =>
    by_cases hcp : pyOrEmpty i.commonPriceR = ""
    · left; simp [hcp]
    · right; right
      refine ⟨amazonCleanPrice (pyOrEmpty i.commonPriceR), by simp [hcp], ?_, ?_⟩
      · exact (amazonCleanPrice_spec _).1
      · exact (amazonCleanPrice_spec _).2

/- ==================================================================
   C5 — the paged scraping loop.
   Embeds the `while max_pages == 0 or current_page <= max_pages` loop of
   ECommerceAutomation.scrape_platform_products_with_browser,
   app.py 421-503 (the per-product body is modelled separately; here only
   link discovery and pagination control matter).
   ================================================================== -/

/-- What one listing-page iteration observes: the links the extractor finds
on the current page and whether `go_to_next_page` would succeed there. -/
structure PageObs where
  links : List String
  advanceOk : Bool

/-- app.py 421-503: the pagination loop, returning how many times
`extractor.go_to_next_page` is called.  `trace` lists the observations of
successive listing pages; the loop consumes one per iteration.
Control flow: while `max_pages == 0 or current_page <= max_pages` (421);
break when no links are found (426-428); `go_to_next_page` is called only
when `max_pages == 0 or current_page < max_pages` (489-494), the loop
breaks on a false return or, in the else-branch, immediately (502-503). -/
def pageLoopCalls : List PageObs → Nat → Nat → Nat
  | [], _, _ => 0
  | p :: rest, maxPages, currentPage =>
    if maxPages = 0 ∨ currentPage ≤ maxPages then
      if p.links = [] then 0
      else if maxPages = 0 ∨ currentPage < maxPages then
        1 + (if p.advanceOk then pageLoopCalls rest maxPages (currentPage + 1) else 0)
      else 0
    else 0

/-- A listing page with one product link and a working next-page control. -/
def goodPage : PageObs := { links := ["https://site.example/product/1"], advanceOk := true }

theorem pageLoopCalls_le (trace : List PageObs) (maxPages currentPage : Nat)
    (h : maxPages ≠ 0) : pageLoopCalls trace maxPages currentPage ≤ maxPages - currentPage := by
  induction trace generalizing currentPage with
  | nil => simp [pageLoopCalls]
  | cons p rest ih =>
    unfold pageLoopCalls
    by_cases hcond : maxPages = 0 ∨ currentPage ≤ maxPages
    · rw [if_pos hcond]
      by_cases hl : p.links = []
      · simp [hl]
      · rw [if_neg hl]
        by_cases hadv : maxPages = 0 ∨ currentPage < maxPages
        · rw [if_pos hadv]
          have hlt : currentPage < maxPages := hadv.resolve_left h
          by_cases hok : p.advanceOk = true
          · rw [if_pos hok]
            have := ih (currentPage + 1)
            omega
          · rw [if_neg hok]
            omega
        · rw [if_neg hadv]
          omega
    · rw [if_neg hcond]
      omega

theorem pageLoopCalls_replicate_good (k currentPage : Nat) :
    pageLoopCalls (List.replicate k goodPage) 0 currentPage = k := by
  induction k generalizing currentPage with
  | zero => rfl
  | succ n ih =>
    show pageLoopCalls (goodPage :: List.replicate n goodPage) 0 currentPage = n + 1
    unfold pageLoopCalls
    have h := ih (currentPage + 1)
    simp only [goodPage] at h ⊢
    simp only [List.cons_ne_self, if_true, if_false, eq_self_iff_true, true_or, if_pos]
    simp [h]
    omega

theorem pageLoopCalls_until_false (k currentPage : Nat) (links : List String)
    (hl : links ≠ []) (rest : List PageObs) :
    pageLoopCalls (List.replicate k goodPage ++ { links := links, advanceOk := false } :: rest)
      0 currentPage = k + 1 := by
  induction k generalizing currentPage with
  | zero =>
    simp only [List.replicate_zero, List.nil_append]
    unfold pageLoopCalls
    simp [hl]
  | succ n ih =>
    show pageLoopCalls (goodPage :: (List.replicate n goodPage ++ _ :: rest)) 0 currentPage
      = n + 1 + 1
    unfold pageLoopCalls
    have h := ih (currentPage + 1)
    simp only [goodPage] at h ⊢
    simp only [List.cons_ne_self, eq_self_iff_true, true_or, if_pos]
    simp [h]
    omega

/-- C5 (confirmed): the loop guard is `(maxPages == 0) OR (currentPage <=
maxPages)` (see `pageLoopCalls`); for `maxPages = N > 0` the loop performs
at most `N` `go_to_next_page` calls on any trace; for `maxPages = 0` it
calls `go_to_next_page` once per processed page, stopping at the first
`false` return, and admits no upper bound: a trace of `k` well-behaved
pages yields exactly `k` calls, for every `k`. -/
theorem c5_pagination_bounds :
    (∀ (trace : List PageObs) (n : Nat), 0 < n → pageLoopCalls trace n 1 ≤ n) ∧
    (∀ k : Nat, pageLoopCalls (List.replicate k goodPage) 0 1 = k) ∧
    (∀ (k : Nat) (links : List String), links ≠ [] → ∀ rest : List PageObs,
      pageLoopCalls (List.replicate k goodPage ++
        { links := links, advanceOk := false } :: rest) 0 1 = k + 1) := by
  refine ⟨?_, fun k => pageLoopCalls_replicate_good k 1, ?_⟩
  · intro trace n hn
    have := pageLoopCalls_le trace n 1 (by omega)
    omega
  · intro k links hl rest
    exact pageLoopCalls_until_false k 1 links hl rest

/-- C5 (witness): at `maxPages = 3` on a concrete two-page trace the loop
makes at most 3 advance calls, and with `maxPages = 0` a five-good-page
trace yields exactly 5 calls, a trace of 2 good pages then a failing
advance yields exactly 3. -/
theorem c5_pagination_bounds_witness :
    pageLoopCalls [goodPage, goodPage] 3 1 ≤ 3 ∧
    pageLoopCalls (List.replicate 5 goodPage) 0 1 = 5 ∧
    pageLoopCalls (List.replicate 2 goodPage ++
      { links := ["x"], advanceOk := false } :: []) 0 1 = 2 + 1 :=
  ⟨c5_pagination_bounds.1 [goodPage, goodPage] 3 (by decide),
   c5_pagination_bounds.2.1 5,
   c5_pagination_bounds.2.2 2 ["x"] (by decide) []⟩

/- ==================================================================
   C2 / C3 — the per-product loop and the persistence sink.
   Embeds the `for i, product_url in enumerate(product_links)` body of
   scrape_platform_products_with_browser (app.py 431-486) together with
   save_product_to_csv (app.py 257-269) and save_variant_to_csv
   (app.py 271-284).
   ================================================================== -/

/-- A variant dict as extract_variants returns it (the variant fields added
to an extract_product_data dict, amazon.py 362-369). -/
structure PyVariantData where
  variant_product_url : Option String
  main_product_url : Option String
  title : Option String
  variant_price : Option String
  seller_name : Option String
  manufacturer_name : Option String
  image_url : Option String

/-- What processing one discovered link observes: whether opening the
product tab succeeds (app.py 436-437; a failure raises, caught at 480),
the extract_product_data result (449), whether save_product_to_csv raises
on this record (458), the extract_variants result (463) and, per variant,
whether save_variant_to_csv raises (472).  Missing entries of
`variantWriteFails` mean the write succeeds. -/
structure LinkOutcome where
  navOk : Bool
  data : PyProductData
  productWriteFails : Bool
  variants : List PyVariantData
  variantWriteFails : List Bool

/-- What Python's csv writer emits for a string-or-None cell: None becomes
an empty field. -/
def csvCell : Option String → String := pyOrEmpty

/-- app.py 259-269: the row save_product_to_csv appends
(`product_data.get(key, "")`, with is_whitelisted defaulting "False" —
the loop always sets it before saving, here passed as `isw`). -/
def productRow (d : PyProductData) (isw : String) : List String :=
  [csvCell d.product_url, csvCell d.title, csvCell d.price, csvCell d.seller_name,
   csvCell d.manufacturer_name, csvCell d.image_url, isw]

/-- app.py 273-284: the row save_variant_to_csv appends. -/
def variantRow (v : PyVariantData) (isw : String) : List String :=
  [csvCell v.variant_product_url, csvCell v.main_product_url, csvCell v.title,
   csvCell v.variant_price, csvCell v.seller_name, csvCell v.manufacturer_name,
   csvCell v.image_url, isw]

/-- app.py 466-473: the `for variant in variants` loop.  Each variant is
classified (467-470; None and "" are both falsy to the classifier) and
saved; a raising save aborts the enclosing try-block, so the remaining
variants of THIS product are skipped (the link loop then continues). -/
def variantRowsWritten (wl : List String) : List PyVariantData → List Bool → List (List String)
  | [], _ => []
  | v :: vs, fails =>
    let isw := check_whitelisted_seller (csvCell v.seller_name) (csvCell v.manufacturer_name) wl
    match fails with
    | true :: _ => []
    | false :: fs => variantRow v isw :: variantRowsWritten wl vs fs
    | [] => variantRow v isw :: variantRowsWritten wl vs []

/-- app.py 431-486: the body of the per-product loop for one link, inside
its try/except — returning the (product rows, variant rows) this link
appends.  An exception anywhere in the body (navigation at 437, a sink
write at 458 or 472) is caught by the handler at 480-486, which closes the
tab and CONTINUES with the next link. -/
def linkRows (wl : List String) (o : LinkOutcome) : List (List String) × List (List String) :=
  if o.navOk then
    -- 452-454: classify, store is_whitelisted on the record
    let isw := check_whitelisted_seller (csvCell o.data.seller_name)
      (csvCell o.data.manufacturer_name) wl
    -- 457: persist only when title or price is truthy
    if pyTruthy o.data.title || pyTruthy o.data.price then
      if o.productWriteFails then ([], [])
      else ([productRow o.data isw], variantRowsWritten wl o.variants o.variantWriteFails)
    else ([], variantRowsWritten wl o.variants o.variantWriteFails)
  else ([], [])

/-- app.py 431-486: the whole per-product loop — every link is processed;
a failed link contributes no rows and the loop moves on. -/
def runProductLoop (wl : List String) : List LinkOutcome → List (List String) × List (List String)
  | [] => ([], [])
  | o :: os =>
    let r := linkRows wl o
    let rest := runProductLoop wl os
    (r.1 ++ rest.1, r.2 ++ rest.2)

/-- A link whose record is extractable but whose product write raises
(e.g. disk full / permission error inside save_product_to_csv). -/
def sinkFailLink : LinkOutcome :=
  { navOk := true
    data := { product_url := some "https://site.example/p/1", title := some "A",
              price := some "₹100", seller_name := some "S",
              manufacturer_name := some "M", image_url := none }
    productWriteFails := true
    variants := []
    variantWriteFails := [] }

/-- A link that processes normally. -/
def goodLink : LinkOutcome :=
  { navOk := true
    data := { product_url := some "https://site.example/p/2", title := some "B",
              price := some "₹200", seller_name := none,
              manufacturer_name := none, image_url := none }
    productWriteFails := false
    variants := []
    variantWriteFails := [] }

/-- C2 (counterexample): with the first link's save_product_to_csv raising,
the session does NOT abort — the per-product handler at app.py 480-486
catches the write error and the loop continues: the second link's record is
still written (and the failed record is silently dropped). -/
theorem c2_sink_failure_counterexample :
    (runProductLoop [] [sinkFailLink, goodLink]).1 =
      [["https://site.example/p/2", "B", "₹200", "", "", "", "False"]] ∧
    (runProductLoop [] [sinkFailLink]).1 = [] := by
  constructor
  · rfl
  · rfl

/-- C2 (amended): a sink write failure inside the per-product loop is
caught by the per-product exception handler: the failed link contributes
no rows and the remaining links are processed exactly as if the failed
link were absent — the error does not propagate and the run is not
terminated.  (Only failures outside this loop, e.g. during CSV header
initialization or in the single-product flow, propagate to the top
level.) -/
theorem c2_sink_failure_amended (wl : List String) (o : LinkOutcome)
    (os : List LinkOutcome) (hfail : o.productWriteFails = true)
    (hsave : pyTruthy o.data.title = true ∨ pyTruthy o.data.price = true) :
    runProductLoop wl (o :: os) = runProductLoop wl os := by
  show (let r := linkRows wl o
        let rest := runProductLoop wl os
        (r.1 ++ rest.1, r.2 ++ rest.2)) = runProductLoop wl os
  have hor : (pyTruthy o.data.title || pyTruthy o.data.price) = true := by
    rcases hsave with h | h <;> simp [h]
  have hlr : linkRows wl o = ([], []) := by
    unfold linkRows
    cases hnav : o.navOk with
    | false => simp
    | true => simp [hor, hfail]
  simp [hlr]

/-- C2 (witness): the amended statement at the concrete failing link. -/
theorem c2_sink_failure_amended_witness :
    runProductLoop [] [sinkFailLink, goodLink] = runProductLoop [] [goodLink] :=
  c2_sink_failure_amended [] sinkFailLink [goodLink] (by decide) (by decide)

/-- A variant record whose title and price are both empty. -/
def emptyVariant : PyVariantData :=
  { variant_product_url := some "https://site.example/p/3"
    main_product_url := some "https://site.example/p/3"
    title := some ""
    variant_price := some ""
    seller_name := none
    manufacturer_name := none
    image_url := none }

/-- A link whose product has neither title nor price but reports one
variant, itself with empty title and empty price. -/
def emptyVariantLink : LinkOutcome :=
  { navOk := true
    data := { product_url := some "https://site.example/p/3", title := none,
              price := none, seller_name := none, manufacturer_name := none,
              image_url := none }
    productWriteFails := false
    variants := [emptyVariant]
    variantWriteFails := [] }

/-- C3 (counterexample): the variants stream has no title-or-price guard —
a variant record with BOTH title and price empty is written (app.py 463-473
saves every extracted variant unconditionally), while the product record of
the same page is correctly discarded.  This refutes the claim for the
variant output stream. -/
theorem c3_variant_write_counterexample :
    (runProductLoop [] [emptyVariantLink]).2 =
      [["https://site.example/p/3", "https://site.example/p/3", "", "", "", "", "", "False"]] ∧
    (runProductLoop [] [emptyVariantLink]).1 = [] := by
  constructor
  · rfl
  · rfl

theorem pyTruthy_iff_csvCell (v : Option String) : pyTruthy v = true ↔ csvCell v ≠ "" := by
  cases v with
  | none => simp [pyTruthy, csvCell, pyOrEmpty]
  | some s => simp [pyTruthy, csvCell, pyOrEmpty]

/-- C3 (amended): every record written to the PRODUCT stream has a
non-empty title cell or a non-empty price cell (the guard at app.py 457);
the VARIANT stream carries no such guard — a variant with both empty is
still written, as the concrete run shows. -/
theorem c3_persisted_record_guard :
    (∀ (wl : List String) (os : List LinkOutcome), ∀ row ∈ (runProductLoop wl os).1,
      List.getD row 1 "" ≠ "" ∨ List.getD row 2 "" ≠ "") ∧
    (runProductLoop [] [emptyVariantLink]).2 ≠ [] := by
  constructor
  · intro wl os
    induction os with
    | nil => intro row h; cases h
    | cons o os ih =>
      intro row hrow
      have hsplit : row ∈ (linkRows wl o).1 ∨ row ∈ (runProductLoop wl os).1 := by
        have : (runProductLoop wl (o :: os)).1 =
            (linkRows wl o).1 ++ (runProductLoop wl os).1 := rfl
        rw [this] at hrow
        exact List.mem_append.mp hrow
      rcases hsplit with h | h
      · unfold linkRows at h
        cases hnav : o.navOk with
        | false => rw [hnav] at h; simp at h
        | true =>
          rw [hnav] at h
          simp only [if_true] at h
          cases hguard : (pyTruthy o.data.title || pyTruthy o.data.price) with
          | false => rw [hguard] at h; simp at h
          | true =>
            rw [hguard] at h
            simp only [if_true] at h
            cases hw : o.productWriteFails with
            | true => rw [hw] at h; simp at h
            | false =>
              rw [hw] at h
              simp only [Bool.false_eq_true, if_false] at h
              have hrw : row = productRow o.data (check_whitelisted_seller
                  (csvCell o.data.seller_name) (csvCell o.data.manufacturer_name) wl) := by
                simpa using h
              rw [hrw]
              rcases Bool.or_eq_true _ _ |>.mp hguard with ht | hp
              · left
                simpa [productRow, List.getD] using (pyTruthy_iff_csvCell o.data.title).mp ht
              · right
                simpa [productRow, List.getD] using (pyTruthy_iff_csvCell o.data.price).mp hp
      · exact ih row h
  · decide

/- ==================================================================
   C6 — the Amazon variant resolution loop.
   Embeds AmazonExtractor._detect_amazon_variants (amazon.py 245-310),
   extract_variants (amazon.py 203-243) and _extract_amazon_variant_data
   (amazon.py 352-375).
   ================================================================== -/

/-- One option as the detection script sees it in the DOM (amazon.py
259-274): its display name, its data-asin, and whether the DOM marks it
`data-initiallyUnavailable="true"`. -/
structure RawVariantOption where
  name : String
  asin : String
  initiallyUnavailable : Bool

/-- One detected option: `{name, asin, value}` (amazon.py 268-272; for
twister rows `value = asin`). -/
structure VariantOption where
  name : String
  asin : String
  value : String
deriving DecidableEq

/-- amazon.py 260-274: options of one twister row — options marked
initially unavailable are excluded at detection time. -/
def detectRowOptions (opts : List RawVariantOption) : List VariantOption :=
  (opts.filter (fun o => !o.initiallyUnavailable)).map (fun o => ⟨o.name, o.asin, o.asin⟩)

/-- amazon.py 253-279: the twister-row scan of _detect_amazon_variants; a
dimension is kept only when at least one option survives the availability
filter (`if (options.length > 0) dimensions[dimName] = options`). -/
def detectAmazonVariants (rows : List (String × List RawVariantOption)) :
    List (String × List VariantOption) :=
  rows.filterMap fun r =>
    if detectRowOptions r.2 = [] then none else some (r.1, detectRowOptions r.2)

/-- The full Amazon variant dict (amazon.py 359-369): the
extract_product_data keys plus the variant-specific keys added by
`variant_data.update(...)`. -/
structure AmazonVariantRecord where
  base : PyProductData
  variant_product_url : Option String
  main_product_url : Option String
  variant_price : Option String
  variant_type : String
  variant_option : String
  variant_asin : String

/-- amazon.py 355-369: build the record for one selected option from the
page state `d` that extract_product_data observed (`page.url` is both the
dict's product_url and the variant_product_url). -/
def mkAmazonVariantRecord (main dim : String) (opt : VariantOption)
    (d : PyProductData) : AmazonVariantRecord :=
  { base := d
    variant_product_url := d.product_url
    main_product_url := some main
    variant_price := d.price
    variant_type := dim
    variant_option := opt.name
    variant_asin := opt.asin }

/-- amazon.py 223-237: the `for option in options` loop of one dimension.
`outcome dim opt` is what the per-option try-block observes: `some d` when
selection-plus-re-extraction leaves the page in state `d` (the usual case —
_select_amazon_variant swallows its own failures and extract_product_data
never raises), `none` when the attempt raises (then the except at 235-237
skips just this option).  The second component counts selection attempts. -/
def runVariantOptions (main dim : String) (opts : List VariantOption)
    (outcome : String → VariantOption → Option PyProductData) :
    List AmazonVariantRecord × Nat :=
  match opts with
  | [] => ([], 0)
  | o :: os =>
    let rest := runVariantOptions main dim os outcome
    match outcome dim o with
    | some d => (mkAmazonVariantRecord main dim o d :: rest.1, rest.2 + 1)
    | none => (rest.1, rest.2 + 1)

/-- amazon.py 203-243 extract_variants: the outer `for dim_name, options in
variant_dimensions.items()` loop — dimensions are iterated independently,
one pass per dimension, never as a cross-product. -/
def amazonExtractVariants (main : String) (dims : List (String × List VariantOption))
    (outcome : String → VariantOption → Option PyProductData) :
    List AmazonVariantRecord × Nat :=
  match dims with
  | [] => ([], 0)
  | (dim, opts) :: rest =>
    let r1 := runVariantOptions main dim opts outcome
    let r2 := amazonExtractVariants main rest outcome
    (r1.1 ++ r2.1, r1.2 + r2.2)

theorem runVariantOptions_attempts (main dim : String) (opts : List VariantOption)
    (outcome : String → VariantOption → Option PyProductData) :
    (runVariantOptions main dim opts outcome).2 = opts.length := by
  induction opts with
  | nil => rfl
  | cons o os ih =>
    unfold runVariantOptions
    cases outcome dim o with
    | some d => simp [ih]
    | none => simp [ih]

theorem amazonExtractVariants_attempts (main : String)
    (dims : List (String × List VariantOption))
    (outcome : String → VariantOption → Option PyProductData) :
    (amazonExtractVariants main dims outcome).2 =
      (dims.map (fun d => d.2.length)).sum := by
  induction dims with
  | nil => rfl
  | cons d rest ih =>
    obtain ⟨dim, opts⟩ := d
    unfold amazonExtractVariants
    simp [runVariantOptions_attempts, ih]

/-- The detection input of the claim's scenario — Color with Red, Blue and
an unavailable Green; Size with S, M. -/
def demoRawDims : List (String × List RawVariantOption) :=
  [("Color", [⟨"Red", "B0AAAAAAA1", false⟩, ⟨"Blue", "B0AAAAAAA2", false⟩,
              ⟨"Green", "B0AAAAAAA3", true⟩]),
   ("Size", [⟨"S", "B0AAAAAAA4", false⟩, ⟨"M", "B0AAAAAAA5", false⟩])]

/-- A page whose per-option selection and re-extraction always succeeds. -/
def demoOutcome : String → VariantOption → Option PyProductData := fun _ o =>
  some { product_url := some ("https://www.amazon.in/dp/" ++ o.asin)
         title := some "T", price := some "₹99", seller_name := some ""
         manufacturer_name := some "", image_url := some "" }

/-- As demoOutcome, except the attempt for Color/Red raises. -/
def demoOutcomeRedFails : String → VariantOption → Option PyProductData := fun d o =>
  if d = "Color" ∧ o.name = "Red" then none else demoOutcome d o

/-- C6 (confirmed): for detected dimensions {Color: [Red, Blue], Size:
[S, M]} the loop makes exactly 4 selection attempts (2 + 2, one pass per
dimension, not a 2×2 cross-product) whatever the per-option outcomes;
each successfully processed option yields exactly one record tagged with
its own dimension name and option name; the option marked unavailable at
detection (Green) is excluded before any selection; a failing attempt for
one option (Red) skips only that option and the remaining three still
yield their records; and in general the number of selection attempts is
the SUM (not the product) of the dimensions' option counts. -/
theorem c6_variant_loop :
    (detectAmazonVariants demoRawDims =
      [("Color", [⟨"Red", "B0AAAAAAA1", "B0AAAAAAA1"⟩, ⟨"Blue", "B0AAAAAAA2", "B0AAAAAAA2"⟩]),
       ("Size", [⟨"S", "B0AAAAAAA4", "B0AAAAAAA4"⟩, ⟨"M", "B0AAAAAAA5", "B0AAAAAAA5"⟩])]) ∧
    (∀ outcome, (amazonExtractVariants "https://www.amazon.in/dp/B0AAAAAAA0"
        (detectAmazonVariants demoRawDims) outcome).2 = 4) ∧
    ((amazonExtractVariants "https://www.amazon.in/dp/B0AAAAAAA0"
        (detectAmazonVariants demoRawDims) demoOutcome).1.map
          (fun r => (r.variant_type, r.variant_option)) =
      [("Color", "Red"), ("Color", "Blue"), ("Size", "S"), ("Size", "M")]) ∧
    ((amazonExtractVariants "https://www.amazon.in/dp/B0AAAAAAA0"
        (detectAmazonVariants demoRawDims) demoOutcomeRedFails).1.map
          (fun r => (r.variant_type, r.variant_option)) =
      [("Color", "Blue"), ("Size", "S"), ("Size", "M")]) ∧
    (∀ (main : String) (dims : List (String × List VariantOption)) outcome,
      (amazonExtractVariants main dims outcome).2 = (dims.map (fun d => d.2.length)).sum) := by
  refine ⟨rfl, ?_, rfl, rfl, amazonExtractVariants_attempts⟩
  intro outcome
  rw [amazonExtractVariants_attempts]
  rfl

/- ==================================================================
   C7 — link discovery.
   Embeds AmazonExtractor.get_product_links (amazon.py 22-58) and
   GenericExtractor.get_product_links (generic.py 15-52).  `hrefs` is the
   anchor list the page evaluation returns (amazon.py 24 / generic.py 17),
   in document order.
   ================================================================== -/

/-- amazon.py 32-38: sponsored/tracking URL fragments. -/
def amazonSponsoredPatterns : List String :=
  ["aax-eu-zaz.amazon.in", "amazon.in/x/c/", "amazon.in/s?k=", "amazon.in/s?ie=",
   "amazon.in/ref="]

/-- `[A-Z0-9]`. -/
def isUpperOrDigit (c : Char) : Bool := c.isUpper || c.isDigit

/-- The regex `/dp/[A-Z0-9]{10}` matched at the head of `l`. -/
def dpAtHead (l : List Char) : Bool :=
  leadsWith "/dp/".toList l &&
  ((l.drop 4).take 10).length == 10 &&
  ((l.drop 4).take 10).all isUpperOrDigit

/-- amazon.py 31, 46: `re.search(r'/dp/[A-Z0-9]{10}', h)` — the pattern
occurs somewhere in the URL. -/
def dpSearch (l : List Char) : Bool :=
  match l with
  | [] => false
  | c :: rest => dpAtHead (c :: rest) || dpSearch rest

/-- amazon.py 41-42: `any(spn in h for spn in sponsored_patterns)`. -/
def amazonIsSponsored (h : String) : Bool :=
  amazonSponsoredPatterns.any fun p => subStr p h

/-- Everything before the first occurrence of `t`. -/
def takeUntilChar (t : Char) (l : List Char) : List Char :=
  l.takeWhile fun c => c ≠ t

/-- amazon.py 48-50: `h.split("?")[0].split("#")[0]` — also exactly the
normalization the claim speaks of (query string and fragment stripped). -/
def normalizeUrl (h : String) : String :=
  ⟨takeUntilChar '#' (takeUntilChar '?' h.toList)⟩

/-- amazon.py 40-57: the scanning loop.  `seen` and `urls` accumulate
(urls reversed); a URL is kept when it is not sponsored, matches the
product-ID pattern, its cleaned form is unseen and contains "amazon.in";
after appending, `len(urls) >= limit` breaks. -/
def amazonLinksGo : List String → List String → List String → Nat → List String
  | [], _, urls, _ => urls.reverse
  | h :: hs, seen, urls, limit =>
    if amazonIsSponsored h then amazonLinksGo hs seen urls limit
    else if dpSearch h.toList then
      -- clean_url := h.split("?")[0].split("#")[0], inlined as normalizeUrl h
      if normalizeUrl h ∉ seen ∧ subStr "amazon.in" (normalizeUrl h) = true then
        if limit ≤ urls.length + 1 then (normalizeUrl h :: urls).reverse
        else amazonLinksGo hs (normalizeUrl h :: seen) (normalizeUrl h :: urls) limit
      else amazonLinksGo hs seen urls limit
    else amazonLinksGo hs seen urls limit

/-- amazon.py 22-58 `get_product_links`. -/
def amazonGetProductLinks (hrefs : List String) (limit : Nat) : List String :=
  amazonLinksGo hrefs [] [] limit

/-- A URL passing the amazon pre-filters (not sponsored, product-ID match). -/
def amazonCandidate (h : String) : Bool :=
  !(amazonIsSponsored h) && dpSearch h.toList

/-- The normalized candidate stream, in document order. -/
def amazonCandidates (hrefs : List String) : List String :=
  ((hrefs.filter amazonCandidate).map normalizeUrl).filter
    fun c => subStr "amazon.in" c

/-- First occurrences: drop any element already in `seen` or earlier in the
list (specification-side dedup, keeps document order of first occurrence). -/
def keepFirstsFrom (seen : List String) : List String → List String
  | [] => []
  | c :: cs =>
    if c ∈ seen then keepFirstsFrom seen cs
    else c :: keepFirstsFrom (c :: seen) cs

/-- generic.py 22: primary e-commerce URL patterns. -/
def genericPrimaryPatterns : List String := ["/product/", "/item/", "/p/", "/prod/", "/dp/"]

/-- generic.py 23: secondary patterns. -/
def genericSecondaryPatterns : List String := ["/sku/", "/goods/", "/detail/", "/view/", "/buy/"]

/-- generic.py 24: tertiary patterns. -/
def genericTertiaryPatterns : List String := ["/catalog/", "/shop/", "/store/", "-p-", "_p_"]

/-- generic.py 27-50: one scanning pass — keep a RAW href (no
normalization) when some pattern occurs in it and it is unseen; append,
and break once `len(urls) >= limit`.  Returns (urls, seen), both
accumulated (urls reversed). -/
def genericPassGo (pats : List String) :
    List String → List String → List String → Nat → List String × List String
  | [], seen, urls, _ => (urls, seen)
  | h :: hs, seen, urls, limit =>
    if pats.any (fun p => subStr p h) = true ∧ h ∉ seen then
      if limit ≤ urls.length + 1 then (h :: urls, h :: seen)
      else genericPassGo pats hs (h :: seen) (h :: urls) limit
    else genericPassGo pats hs seen urls limit

/-- generic.py 15-52 `get_product_links`: primary pass, then the secondary
pass only when fewer than `limit // 2` links were found, then the tertiary
pass only when fewer than `limit // 4`. -/
def genericGetProductLinks (hrefs : List String) (limit : Nat) : List String :=
  let r1 := genericPassGo genericPrimaryPatterns hrefs [] [] limit
  let r2 := if r1.1.length < limit / 2 then
      genericPassGo genericSecondaryPatterns hrefs r1.2 r1.1 limit else r1
  let r3 := if r2.1.length < limit / 4 then
      genericPassGo genericTertiaryPatterns hrefs r2.2 r2.1 limit else r2
  r3.1.reverse

theorem takeUntilChar_mem (t : Char) (l : List Char) :
    ∀ c ∈ takeUntilChar t l, c ≠ t := by
  intro c hc
  unfold takeUntilChar at hc
  have h := List.mem_takeWhile_imp hc
  simpa using h

theorem takeUntilChar_subset (t : Char) (l : List Char) :
    ∀ c ∈ takeUntilChar t l, c ∈ l :=
  fun _ hc => (List.takeWhile_sublist _).subset hc

theorem takeUntilChar_of_all (t : Char) (l : List Char) (h : ∀ c ∈ l, c ≠ t) :
    takeUntilChar t l = l := by
  unfold takeUntilChar
  rw [List.takeWhile_eq_self_iff]
  intro x hx
  simpa using h x hx

theorem normalizeUrl_idem (u : String) : normalizeUrl (normalizeUrl u) = normalizeUrl u := by
  unfold normalizeUrl
  have hdata : (String.mk (takeUntilChar '#' (takeUntilChar '?' u.toList))).toList =
      takeUntilChar '#' (takeUntilChar '?' u.toList) := rfl
  rw [hdata]
  have h1 : takeUntilChar '?' (takeUntilChar '#' (takeUntilChar '?' u.toList)) =
      takeUntilChar '#' (takeUntilChar '?' u.toList) := by
    apply takeUntilChar_of_all
    intro c hc
    exact takeUntilChar_mem '?' u.toList c (takeUntilChar_subset '#' _ c hc)
  rw [h1]
  have h2 : takeUntilChar '#' (takeUntilChar '#' (takeUntilChar '?' u.toList)) =
      takeUntilChar '#' (takeUntilChar '?' u.toList) := by
    apply takeUntilChar_of_all
    exact takeUntilChar_mem '#' _
  rw [h2]

theorem keepFirstsFrom_mem (l : List String) :
    ∀ (seen : List String) (x : String), x ∈ keepFirstsFrom seen l → x ∉ seen ∧ x ∈ l := by
  induction l with
  | nil => intro seen x hx; cases hx
  | cons c cs ih =>
    intro seen x hx
    unfold keepFirstsFrom at hx
    by_cases hc : c ∈ seen
    · rw [if_pos hc] at hx
      obtain ⟨h1, h2⟩ := ih seen x hx
      exact ⟨h1, List.mem_cons_of_mem c h2⟩
    · rw [if_neg hc] at hx
      rcases List.mem_cons.mp hx with h | h
      · exact ⟨h ▸ hc, h ▸ List.mem_cons_self c cs⟩
      · obtain ⟨h1, h2⟩ := ih (c :: seen) x h
        exact ⟨fun hmem => h1 (List.mem_cons_of_mem c hmem), List.mem_cons_of_mem c h2⟩

theorem keepFirstsFrom_nodup (l : List String) :
    ∀ seen : List String, (keepFirstsFrom seen l).Nodup := by
  induction l with
  | nil => intro seen; exact List.nodup_nil
  | cons c cs ih =>
    intro seen
    unfold keepFirstsFrom
    by_cases hc : c ∈ seen
    · rw [if_pos hc]; exact ih seen
    · rw [if_neg hc]
      refine List.nodup_cons.mpr ⟨?_, ih (c :: seen)⟩
      intro hmem
      exact (keepFirstsFrom_mem cs (c :: seen) c hmem).1 (List.mem_cons_self c seen)

theorem map_fixed_eq_self {α : Type} (f : α → α) (l : List α)
    (h : ∀ x ∈ l, f x = x) : l.map f = l := by
  induction l with
  | nil => rfl
  | cons a as ih =>
    rw [List.map_cons, h a (List.mem_cons_self a as),
      ih fun x hx => h x (List.mem_cons_of_mem a hx)]

theorem amazonCandidates_cons (h : String) (hs : List String) :
    amazonCandidates (h :: hs) =
      if amazonCandidate h = true ∧ subStr "amazon.in" (normalizeUrl h) = true
      then normalizeUrl h :: amazonCandidates hs else amazonCandidates hs := by
  unfold amazonCandidates
  by_cases h1 : amazonCandidate h = true
  · rw [List.filter_cons_of_pos h1, List.map_cons]
    by_cases h2 : subStr "amazon.in" (normalizeUrl h) = true
    · rw [List.filter_cons_of_pos h2, if_pos ⟨h1, h2⟩]
    · rw [List.filter_cons_of_neg (by simpa using h2), if_neg (by tauto)]
  · rw [List.filter_cons_of_neg (by simpa using h1), if_neg (by tauto)]

theorem amazonCandidates_fixed (hrefs : List String) :
    ∀ x ∈ amazonCandidates hrefs, normalizeUrl x = x := by
  intro x hx
  unfold amazonCandidates at hx
  have hx2 := List.mem_of_mem_filter hx
  obtain ⟨y, _, hy⟩ := List.mem_map.mp hx2
  rw [← hy]
  exact normalizeUrl_idem y


theorem amazonLinksGo_spec (hs : List String) :
    ∀ (seen urls : List String) (limit : Nat), urls.length < limit →
    amazonLinksGo hs seen urls limit =
      urls.reverse ++ (keepFirstsFrom seen (amazonCandidates hs)).take (limit - urls.length) := by
  induction hs with
  | nil =>
    intro seen urls limit _
    show urls.reverse = urls.reverse ++ (keepFirstsFrom seen (amazonCandidates [])).take _
    have hempty : amazonCandidates [] = [] := rfl
    simp [hempty, keepFirstsFrom]
  | cons h hs ih =>
    intro seen urls limit hlen
    rw [amazonCandidates_cons]
    by_cases hsp : amazonIsSponsored h = true
    · have hcand : ¬ (amazonCandidate h = true ∧ subStr "amazon.in" (normalizeUrl h) = true) := by
        unfold amazonCandidate
        rw [hsp]
        simp
      rw [if_neg hcand]
      unfold amazonLinksGo
      rw [if_pos hsp]
      exact ih seen urls limit hlen
    · by_cases hdp : dpSearch h.toList = true
      · have hcand : amazonCandidate h = true := by
          unfold amazonCandidate
          rw [hdp, Bool.eq_false_iff.mpr hsp]
          rfl
        by_cases hsub : subStr "amazon.in" (normalizeUrl h) = true
        · rw [if_pos ⟨hcand, hsub⟩]
          by_cases hseen : normalizeUrl h ∈ seen
          · have hkf : keepFirstsFrom seen (normalizeUrl h :: amazonCandidates hs) =
                keepFirstsFrom seen (amazonCandidates hs) := by
              show (if normalizeUrl h ∈ seen then keepFirstsFrom seen (amazonCandidates hs)
                else normalizeUrl h :: keepFirstsFrom (normalizeUrl h :: seen)
                  (amazonCandidates hs)) = _
              rw [if_pos hseen]
            rw [hkf]
            unfold amazonLinksGo
            rw [if_neg hsp, if_pos hdp, if_neg (show ¬ (normalizeUrl h ∉ seen ∧
              subStr "amazon.in" (normalizeUrl h) = true) by tauto)]
            exact ih seen urls limit hlen
          · have hkf : keepFirstsFrom seen (normalizeUrl h :: amazonCandidates hs) =
                normalizeUrl h :: keepFirstsFrom (normalizeUrl h :: seen) (amazonCandidates hs) := by
              show (if normalizeUrl h ∈ seen then keepFirstsFrom seen (amazonCandidates hs)
                else normalizeUrl h :: keepFirstsFrom (normalizeUrl h :: seen)
                  (amazonCandidates hs)) = _
              rw [if_neg hseen]
            rw [hkf]
            unfold amazonLinksGo
            rw [if_neg hsp, if_pos hdp, if_pos ⟨hseen, hsub⟩]
            have hsucc : limit - urls.length = (limit - (urls.length + 1)) + 1 := by omega
            rw [hsucc, List.take_succ_cons]
            by_cases hbrk : limit ≤ urls.length + 1
            · rw [if_pos hbrk]
              have hz : limit - (urls.length + 1) = 0 := by omega
              rw [hz, List.take_zero, List.reverse_cons]
            · rw [if_neg hbrk]
              have hlen2 : (normalizeUrl h :: urls).length < limit := by
                simp only [List.length_cons]
                omega
              rw [ih (normalizeUrl h :: seen) (normalizeUrl h :: urls) limit hlen2,
                List.reverse_cons, List.append_assoc, List.singleton_append,
                List.length_cons]
        · rw [if_neg (by tauto)]
          unfold amazonLinksGo
          rw [if_neg hsp, if_pos hdp, if_neg (by tauto)]
          exact ih seen urls limit hlen
      · have hcand : ¬ (amazonCandidate h = true ∧ subStr "amazon.in" (normalizeUrl h) = true) := by
          unfold amazonCandidate
          rw [Bool.eq_false_iff.mpr hdp]
          simp
        rw [if_neg hcand]
        unfold amazonLinksGo
        rw [if_neg hsp, if_neg hdp]
        exact ih seen urls limit hlen

theorem amazonGetProductLinks_spec (hrefs : List String) (limit : Nat) (h : 1 ≤ limit) :
    amazonGetProductLinks hrefs limit =
      (keepFirstsFrom [] (amazonCandidates hrefs)).take limit := by
  unfold amazonGetProductLinks
  rw [amazonLinksGo_spec hrefs [] [] limit (by simpa using h)]
  simp

theorem genericPassGo_spec (pats : List String) (hs : List String) :
    ∀ (urls : List String) (limit : Nat), urls.Nodup → urls.length < limit →
    (genericPassGo pats hs urls urls limit).2 = (genericPassGo pats hs urls urls limit).1 ∧
    (genericPassGo pats hs urls urls limit).1.Nodup ∧
    (genericPassGo pats hs urls urls limit).1.length ≤ limit := by
  induction hs with
  | nil =>
    intro urls limit hnd hlen
    exact ⟨rfl, hnd, Nat.le_of_lt hlen⟩
  | cons h hs ih =>
    intro urls limit hnd hlen
    unfold genericPassGo
    by_cases hc : (pats.any fun p => subStr p h) = true ∧ h ∉ urls
    · rw [if_pos hc]
      by_cases hbrk : limit ≤ urls.length + 1
      · rw [if_pos hbrk]
        refine ⟨rfl, List.nodup_cons.mpr ⟨hc.2, hnd⟩, ?_⟩
        simp only [List.length_cons]
        omega
      · rw [if_neg hbrk]
        exact ih (h :: urls) limit (List.nodup_cons.mpr ⟨hc.2, hnd⟩)
          (by simp only [List.length_cons]; omega)
    · rw [if_neg hc]
      exact ih urls limit hnd hlen

theorem genericStep (pats hrefs : List String) (limit thr : Nat)
    (r : List String × List String)
    (hinv : r.2 = r.1 ∧ r.1.Nodup ∧ r.1.length ≤ limit) (hthr : thr ≤ limit) :
    (if r.1.length < thr then genericPassGo pats hrefs r.2 r.1 limit else r).2 =
      (if r.1.length < thr then genericPassGo pats hrefs r.2 r.1 limit else r).1 ∧
    (if r.1.length < thr then genericPassGo pats hrefs r.2 r.1 limit else r).1.Nodup ∧
    (if r.1.length < thr then genericPassGo pats hrefs r.2 r.1 limit else r).1.length ≤ limit := by
  by_cases hg : r.1.length < thr
  · simp only [if_pos hg]
    rw [hinv.1]
    exact genericPassGo_spec pats hrefs r.1 limit hinv.2.1 (Nat.lt_of_lt_of_le hg hthr)
  · simp only [if_neg hg]
    exact hinv

theorem genericGetProductLinks_spec (hrefs : List String) (limit : Nat) (h : 1 ≤ limit) :
    (genericGetProductLinks hrefs limit).Nodup ∧
    (genericGetProductLinks hrefs limit).length ≤ limit := by
  unfold genericGetProductLinks
  have h1 := genericPassGo_spec genericPrimaryPatterns hrefs [] limit List.nodup_nil
    (by simp only [List.length_nil]; omega)
  have h1x : (genericPassGo genericPrimaryPatterns hrefs [] [] limit).2 =
      (genericPassGo genericPrimaryPatterns hrefs [] [] limit).1 ∧
      (genericPassGo genericPrimaryPatterns hrefs [] [] limit).1.Nodup ∧
      (genericPassGo genericPrimaryPatterns hrefs [] [] limit).1.length ≤ limit := h1
  have h2 := genericStep genericSecondaryPatterns hrefs limit (limit / 2)
    (genericPassGo genericPrimaryPatterns hrefs [] [] limit) h1x (Nat.div_le_self _ _)
  have h3 := genericStep genericTertiaryPatterns hrefs limit (limit / 4)
    _ h2 (Nat.div_le_self _ _)
  refine ⟨List.nodup_reverse.mpr h3.2.1, ?_⟩
  have := h3.2.2
  simpa using this

/-- C7 (counterexample): three refuting runs. (1) The Generic extractor
deduplicates by EXACT URL, not by normalized URL: two links to the same
product with different query strings are both returned, and their
normalized forms coincide. (2) The Generic extractor emits pattern-tier
order, not document order of first occurrence: a secondary-pattern link
that occurs FIRST in the document is listed after a later primary-pattern
link. (3) With limit 0 the loop appends once before checking the break
condition, so the result exceeds the limit (both extractors share this
append-then-check shape; shown on Amazon). -/
theorem c7_links_counterexample :
    (¬ ((genericGetProductLinks
        ["https://s.example/product/a?x=1", "https://s.example/product/a?x=2"] 50).map
          normalizeUrl).Nodup) ∧
    genericGetProductLinks ["https://s.example/sku/1", "https://s.example/product/2"] 50 =
      ["https://s.example/product/2", "https://s.example/sku/1"] ∧
    amazonGetProductLinks ["https://www.amazon.in/dp/B0AAAAAAA1"] 0 =
      ["https://www.amazon.in/dp/B0AAAAAAA1"] := by
  refine ⟨by decide, rfl, rfl⟩

/-- C7 (amended): for every positive limit — the Amazon extractor returns
exactly the first `limit` first-occurrence (document-order) normalized
candidate URLs, hence never two URLs equal after normalization and never
more than `limit` entries; the Generic extractor never returns the same
EXACT URL twice (it does not normalize) and never more than `limit`
entries, in pattern-tier order (primary, then secondary, then tertiary
pass) rather than global document order. -/
theorem c7_links_amended (hrefs : List String) (limit : Nat) (hlim : 1 ≤ limit) :
    amazonGetProductLinks hrefs limit =
      (keepFirstsFrom [] (amazonCandidates hrefs)).take limit ∧
    ((amazonGetProductLinks hrefs limit).map normalizeUrl).Nodup ∧
    (amazonGetProductLinks hrefs limit).length ≤ limit ∧
    (genericGetProductLinks hrefs limit).Nodup ∧
    (genericGetProductLinks hrefs limit).length ≤ limit := by
  have heq := amazonGetProductLinks_spec hrefs limit hlim
  have hsubset : ∀ x ∈ amazonGetProductLinks hrefs limit, x ∈ amazonCandidates hrefs := by
    intro x hx
    rw [heq] at hx
    exact (keepFirstsFrom_mem _ _ x ((List.take_sublist _ _).subset hx)).2
  have hfix : (amazonGetProductLinks hrefs limit).map normalizeUrl =
      amazonGetProductLinks hrefs limit :=
    map_fixed_eq_self _ _ fun x hx => amazonCandidates_fixed hrefs x (hsubset x hx)
  have hnodup : (amazonGetProductLinks hrefs limit).Nodup := by
    rw [heq]
    exact (List.take_sublist _ _).nodup (keepFirstsFrom_nodup _ _)
  refine ⟨heq, by rw [hfix]; exact hnodup, ?_, (genericGetProductLinks_spec hrefs limit hlim).1,
    (genericGetProductLinks_spec hrefs limit hlim).2⟩
  rw [heq]
  exact List.length_take_le limit (keepFirstsFrom [] (amazonCandidates hrefs))

/-- C7 (witness): the amended statement at a concrete listing page — two
anchors to the same product (one with a query string) collapse to one
normalized Amazon link. -/
theorem c7_links_amended_witness :
    amazonGetProductLinks ["https://www.amazon.in/dp/B0AAAAAAA1?x=1",
        "https://www.amazon.in/dp/B0AAAAAAA1"] 50 =
      (keepFirstsFrom [] (amazonCandidates ["https://www.amazon.in/dp/B0AAAAAAA1?x=1",
        "https://www.amazon.in/dp/B0AAAAAAA1"])).take 50 ∧
    ((amazonGetProductLinks ["https://www.amazon.in/dp/B0AAAAAAA1?x=1",
        "https://www.amazon.in/dp/B0AAAAAAA1"] 50).map normalizeUrl).Nodup ∧
    (amazonGetProductLinks ["https://www.amazon.in/dp/B0AAAAAAA1?x=1",
        "https://www.amazon.in/dp/B0AAAAAAA1"] 50).length ≤ 50 ∧
    (genericGetProductLinks ["https://www.amazon.in/dp/B0AAAAAAA1?x=1",
        "https://www.amazon.in/dp/B0AAAAAAA1"] 50).Nodup ∧
    (genericGetProductLinks ["https://www.amazon.in/dp/B0AAAAAAA1?x=1",
        "https://www.amazon.in/dp/B0AAAAAAA1"] 50).length ≤ 50 :=
  c7_links_amended ["https://www.amazon.in/dp/B0AAAAAAA1?x=1",
    "https://www.amazon.in/dp/B0AAAAAAA1"] 50 (by norm_num)

/- ==================================================================
   C1 — the platform registry and extractor instantiation.
   Embeds platforms/__init__.py 23-38 (PLATFORM_EXTRACTORS), 128-130
   (get_extractor) and the abc machinery of platforms/base.py 12,
   180-198: BaseExtractor is an ABC whose four @abstractmethod members
   must ALL be overridden before a subclass can be instantiated —
   Python raises TypeError at `extractor_class()` otherwise.
   ================================================================== -/

/-- The four capabilities declared @abstractmethod in base.py 180-198. -/
inductive ExtractorMethod where
  | getProductLinks
  | extractProductData
  | goToNextPage
  | extractVariants
deriving DecidableEq

/-- The classes registered in platforms/__init__.py. -/
inductive ExtractorClass where
  | AmazonExtractor
  | FlipkartExtractor
  | MyntraExtractor
  | MeeshoExtractor
  | AjioExtractor
  | EbayExtractor
  | RedbubbleExtractor
  | SnapdealExtractor
  | ShopsyExtractor
  | NykaaExtractor
  | TataCliqExtractor
  | IndiaMARTExtractor
  | WalmartExtractor
  | GenericExtractor
deriving DecidableEq

/-- base.py 180-198: the abstract method set of BaseExtractor. -/
def baseAbstractMethods : List ExtractorMethod :=
  [.getProductLinks, .extractProductData, .goToNextPage, .extractVariants]

/-- The methods each platform file actually overrides (read off the class
bodies: amazon.py defines all four; every other platform file — flipkart,
myntra, meesho, ajio, ebay, redbubble, snapdeal, shopsy, nykaa, tatacliq,
indiamart, walmart and generic — defines only get_product_links and
extract_product_data). -/
def definedMethods : ExtractorClass → List ExtractorMethod
  | .AmazonExtractor =>
      [.getProductLinks, .extractProductData, .goToNextPage, .extractVariants]
  | _ => [.getProductLinks, .extractProductData]

/-- platforms/__init__.py 23-38: the platform registry. -/
def PLATFORM_EXTRACTORS : List (String × ExtractorClass) :=
  [("amazon", .AmazonExtractor), ("flipkart", .FlipkartExtractor),
   ("myntra", .MyntraExtractor), ("meesho", .MeeshoExtractor),
   ("ajio", .AjioExtractor), ("ebay", .EbayExtractor),
   ("redbubble", .RedbubbleExtractor), ("snapdeal", .SnapdealExtractor),
   ("shopsy", .ShopsyExtractor), ("nykaa", .NykaaExtractor),
   ("tatacliq", .TataCliqExtractor), ("indiamart", .IndiaMARTExtractor),
   ("walmart", .WalmartExtractor), ("generic", .GenericExtractor)]

/-- platforms/__init__.py 128-130:
`PLATFORM_EXTRACTORS.get(platform, GenericExtractor)`. -/
def get_extractor (platform : String) : ExtractorClass :=
  (PLATFORM_EXTRACTORS.lookup platform).getD ExtractorClass.GenericExtractor

/-- Python abc: `extractor_class()` succeeds iff no abstract method of the
base remains unoverridden; otherwise ABCMeta raises TypeError. -/
def canInstantiate (c : ExtractorClass) : Bool :=
  baseAbstractMethods.all fun m => (definedMethods c).contains m

/-- C1 (code_bug evaluation): the claim — every registered extractor class,
in particular the Generic fallback, can be instantiated and provides all
four capabilities — fails on the code: GenericExtractor overrides neither
go_to_next_page nor extract_variants, so `get_extractor("generic")()`
raises TypeError; of the fourteen registered keys only "amazon" names an
instantiable class.  (app.py 347-348 and 490 nevertheless instantiate and
call go_to_next_page for every platform, so the spec states the evident
intent and the code is the slip.) -/
theorem c1_registry_instantiation :
    canInstantiate (get_extractor "generic") = false ∧
    get_extractor "generic" = ExtractorClass.GenericExtractor ∧
    ((PLATFORM_EXTRACTORS.map Prod.fst).filter
        fun k => canInstantiate (get_extractor k)) = ["amazon"] ∧
    ExtractorMethod.goToNextPage ∉ definedMethods ExtractorClass.GenericExtractor ∧
    ExtractorMethod.extractVariants ∉ definedMethods ExtractorClass.GenericExtractor := by
  refine ⟨rfl, rfl, by decide, by decide, by decide⟩
